import Mathlib

/-!
Verification of the entity/object model of the gazebo physics simulator.

The development shallowly embeds:
- the `EntityType` enumeration and the `EntityTypename` string table of
  `src/src/physics/Base.hh`;
- the `Base` entity-tree node (identity, name, type tags, flags, world
  reference, ordered children) together with its tree-mutation and lookup
  operations; the member-function bodies live in `Base.cc`, which is not part
  of the available sources, so those operations are modelled from the
  specification text (each such definition is marked `Modelled from the
  spec:`);
- the `SphereMaker` GUI state machine of `src/src/gui/SphereMaker.cc`.
-/

namespace GazeboPhysics

/-- The `Base::EntityType` enumeration of `src/src/physics/Base.hh`
(lines 50-55): 23 enumerators, `BASE` through `VISUAL`. -/
inductive EntityType where
  | BASE | ENTITY | MODEL | LINK | GEOM
  | BALL_JOINT | BOX_SHAPE | CYLINDER_SHAPE
  | HEIGHTMAP_SHAPE | HINGE2_JOINT | HINGE_JOINT
  | JOINT | MAP_SHAPE | MULTIRAY_SHAPE | RAY_SHAPE
  | PLANE_SHAPE | SHAPE | SLIDER_JOINT | SPHERE_SHAPE
  | TRIMESH_SHAPE | UNIVERSAL_JOINT | LIGHT | VISUAL
  deriving DecidableEq, Repr

/-- The integer value a C++ enumerator of `Base::EntityType` has: the
enumerators carry no explicit values, so they number 0 upward in declaration
order. -/
def EntityType.toIdx : EntityType → Nat
  | .BASE => 0
  | .ENTITY => 1
  | .MODEL => 2
  | .LINK => 3
  | .GEOM => 4
  | .BALL_JOINT => 5
  | .BOX_SHAPE => 6
  | .CYLINDER_SHAPE => 7
  | .HEIGHTMAP_SHAPE => 8
  | .HINGE2_JOINT => 9
  | .HINGE_JOINT => 10
  | .JOINT => 11
  | .MAP_SHAPE => 12
  | .MULTIRAY_SHAPE => 13
  | .RAY_SHAPE => 14
  | .PLANE_SHAPE => 15
  | .SHAPE => 16
  | .SLIDER_JOINT => 17
  | .SPHERE_SHAPE => 18
  | .TRIMESH_SHAPE => 19
  | .UNIVERSAL_JOINT => 20
  | .LIGHT => 21
  | .VISUAL => 22

/-- The `EntityTypename` array of `src/src/physics/Base.hh` (lines 41-45),
entry for entry. -/
def EntityTypename : List String :=
  [ "common", "entity", "model", "body", "collision", "ball", "box",
    "cylinder", "heightmap", "hinge2", "hinge", "joint", "map", "multiray",
    "ray", "plane", "shape", "slider", "sphere", "trimesh", "universal",
    "light", "visual" ]

/-- The `Base` tree node of `src/src/physics/Base.hh` (lines 48-214): an
entity carries its unique integer `id`, a display `name`, the ordered
append-only `typeTags` sequence (field `type` in the header), the `saveable`
and `selected` flags, a non-owning `world` reference (modelled as an optional
world handle), and the ordered sequence of owned `children`.  The parent
back-reference of the header is represented implicitly by the tree structure
itself. -/
inductive Base where
  | node (id : Nat) (name : String) (typeTags : List EntityType)
         (saveable selected : Bool) (world : Option Nat)
         (children : List Base)

/-- Accessor `Base::GetId` — return the unique ID of this entity. -/
def Base.GetId : Base → Nat
  | .node i _ _ _ _ _ _ => i

/-- Accessor `Base::GetName` — return the name of the entity. -/
def Base.GetName : Base → String
  | .node _ n _ _ _ _ _ => n

/-- The `type` vector of the header (the ordered type-tag sequence). -/
def Base.typeTags : Base → List EntityType
  | .node _ _ t _ _ _ _ => t

/-- The `saveable` flag. -/
def Base.GetSaveable : Base → Bool
  | .node _ _ _ sv _ _ _ => sv

/-- The `selected` flag (`Base::IsSelected`). -/
def Base.IsSelected : Base → Bool
  | .node _ _ _ _ sl _ _ => sl

/-- Accessor `Base::GetWorld` — the world this object is in. -/
def Base.GetWorld : Base → Option Nat
  | .node _ _ _ _ _ w _ => w

/-- The `children` vector. -/
def Base.children : Base → List Base
  | .node _ _ _ _ _ _ ch => ch

mutual

/-- Modelled from the spec: `Base::SetWorld` (declared at `Base.hh` lines
182-184, body in the missing `Base.cc`) — "sets this entity's world reference
and recursively sets it on every existing child". -/
def Base.SetWorld (w : Option Nat) : Base → Base
  | .node i n t sv sl _ ch => .node i n t sv sl w (Base.SetWorldList w ch)

/-- Recursive helper of `Base.SetWorld` over the children list. -/
def Base.SetWorldList (w : Option Nat) : List Base → List Base
  | [] => []
  | e :: es => Base.SetWorld w e :: Base.SetWorldList w es

end

mutual

/-- Decides whether every node of the tree (self and all descendants) has
world reference `w`. -/
def Base.allWorld (w : Option Nat) : Base → Bool
  | .node _ _ _ _ _ w2 ch => (w2 == w) && Base.allWorldList w ch

/-- Function `Base.allWorld` over a list of trees. -/
def Base.allWorldList (w : Option Nat) : List Base → Bool
  | [] => true
  | e :: es => Base.allWorld w e && Base.allWorldList w es

end

mutual

/-- All ids occurring in the tree (self and all descendants). -/
def Base.subtreeIds : Base → List Nat
  | .node i _ _ _ _ _ ch => i :: Base.subtreeIdsList ch

/-- Function `Base.subtreeIds` over a list of trees. -/
def Base.subtreeIdsList : List Base → List Nat
  | [] => []
  | e :: es => Base.subtreeIds e ++ Base.subtreeIdsList es

end

/-- Outcome of an attach attempt, from the spec's error taxonomy:
`InvalidAttachment` covers "attempt to attach a null child, or to attach an
entity that would create a cycle — rejected, no mutation occurs". -/
inductive AttachResult where
  | ok
  | invalidAttachment
  deriving DecidableEq, Repr

/-- Modelled from the spec: `Base::AddChild` (declared at `Base.hh` lines
112-114, body in the missing `Base.cc`) — "appends `child` to the children
sequence, takes ownership, and propagates this entity's `world` reference to
`child` and recursively to all of `child`'s existing descendants"; a null
child or an attachment that would create a cycle (the attached subtree
already contains this entity) is an `InvalidAttachment`: it is rejected and
no mutation occurs.  The function returns the outcome together with the
(possibly unchanged) parent. -/
def Base.AddChild (p : Base) (child : Option Base) : AttachResult × Base :=
  match child with
  | none => (AttachResult.invalidAttachment, p)
  | some c =>
      if p.GetId ∈ c.subtreeIds then (AttachResult.invalidAttachment, p)
      else
        match p with
        | .node i n t sv sl w ch =>
            (AttachResult.ok,
              .node i n t sv sl w (ch ++ [Base.SetWorld w c]))

/-- Modelled from the spec: `Base::GetChild(name)` (declared at `Base.hh`
lines 135-136) — "leftmost match by exact name equality; returns an
empty/null result if absent". -/
def Base.GetChild (p : Base) (name : String) : Option Base :=
  p.children.find? (fun c => c.GetName == name)

/-- Removes the leftmost entity with the given name from a list, leaving the
rest untouched; returns the list unchanged when no name matches. -/
def removeFirstByName (name : String) : List Base → List Base
  | [] => []
  | c :: cs =>
      if c.GetName == name then cs else c :: removeFirstByName name cs

/-- Modelled from the spec: `Base::RemoveChild(name)` (declared at `Base.hh`
lines 138-139) — "removes and destroys the first matching child (by identity
or by leftmost name match); no-op if absent". -/
def Base.RemoveChildByName (p : Base) (name : String) : Base :=
  match p with
  | .node i n t sv sl w ch => .node i n t sv sl w (removeFirstByName name ch)

/-- Modelled from the spec: `Base::AddType` (declared at `Base.hh` lines
141-142) — "appends to `typeTags`; never removes or reorders". -/
def Base.AddType (p : Base) (ty : EntityType) : Base :=
  match p with
  | .node i n t sv sl w ch => .node i n (t ++ [ty]) sv sl w ch

/-- Repeated `Base.AddType`, one call per element in order. -/
def Base.AddTypes (p : Base) : List EntityType → Base
  | [] => p
  | ty :: tys => (p.AddType ty).AddTypes tys

/-- Modelled from the spec: `Base::HasType` (declared at `Base.hh` lines
144-145) — "true if `marker` appears anywhere in `typeTags`". -/
def Base.HasType (p : Base) (ty : EntityType) : Bool :=
  p.typeTags.contains ty

/-- Modelled from the spec: `Base::GetLeafType` (declared at `Base.hh` lines
153-154) — "the last-appended marker, or a sentinel "none" if `typeTags` is
empty"; the sentinel is modelled as `Option.none`, distinct from `some m`
for every real marker `m`. -/
def Base.GetLeafType (p : Base) : Option EntityType :=
  p.typeTags.getLast?

/-- Modelled from the spec: `Base::operator==` (declared at `Base.hh` lines
179-180) — "Returns true if the entities are the same. Checks only the
name": a shallow, name-only comparison. -/
def Base.beq (a b : Base) : Bool :=
  a.GetName == b.GetName

/-- Modelled from the spec: the `IdentityAllocator` backed by the static
`Base::idCounter` (`Base.hh` lines 203-207; the constructor that consumes it
lives in the missing `Base.cc`) — "hands out process-wide unique integer
identities on entity creation; never reused", a "monotonically allocated
counter, never reset".  A process run is a sequence of create/destroy
events; `runIds` lists the ids handed out along the run starting from
counter value `c`: creation returns the current counter and increments it,
destruction never touches the counter. -/
inductive ProcEvent where
  | create
  | destroy
  deriving DecidableEq, Repr

/-- The ids assigned along a process run (see `ProcEvent`). -/
def runIds (c : Nat) : List ProcEvent → List Nat
  | [] => []
  | ProcEvent.create :: es => c :: runIds (c + 1) es
  | ProcEvent.destroy :: es => runIds c es

end GazeboPhysics

namespace GazeboPhysics

mutual

theorem Base.allWorld_SetWorld (w : Option Nat) (e : Base) :
    Base.allWorld w (Base.SetWorld w e) = true := by
  match e with
  | .node i n t sv sl w2 ch =>
    simp [Base.SetWorld, Base.allWorld, Base.allWorldList_SetWorldList w ch]

theorem Base.allWorldList_SetWorldList (w : Option Nat) (es : List Base) :
    Base.allWorldList w (Base.SetWorldList w es) = true := by
  match es with
  | [] => rfl
  | e :: es2 =>
    simp [Base.SetWorldList, Base.allWorldList, Base.allWorld_SetWorld w e,
      Base.allWorldList_SetWorldList w es2]

end

theorem Base.SetWorld_GetId (w : Option Nat) (e : Base) :
    (Base.SetWorld w e).GetId = e.GetId := by
  cases e with
  | node i n t sv sl w2 ch => rfl

theorem Base.SetWorld_GetName (w : Option Nat) (e : Base) :
    (Base.SetWorld w e).GetName = e.GetName := by
  cases e with
  | node i n t sv sl w2 ch => rfl

theorem Base.self_mem_subtreeIds (e : Base) : e.GetId ∈ e.subtreeIds := by
  cases e with
  | node i n t sv sl w ch =>
    simp [Base.GetId, Base.subtreeIds]

/-- C1: for every attach operation `AddChild(parent, child)` with a non-null
child that is accepted, immediately after the call returns the parent's own
world reference is unchanged, exactly one child was appended to the parent's
children sequence, the appended entity is the attached child (same id), and
its world reference — and recursively the world reference of every
descendant it already had at the moment of attachment — equals the parent's
world reference. -/
theorem addChild_propagates_world (p c p' : Base)
    (h : Base.AddChild p (some c) = (AttachResult.ok, p')) :
    p'.GetWorld = p.GetWorld ∧
      ∃ c', p'.children = p.children ++ [c'] ∧ c'.GetId = c.GetId ∧
        Base.allWorld p'.GetWorld c' = true := by
  cases p with
  | node i n t sv sl w ch =>
    by_cases hmem : (Base.node i n t sv sl w ch).GetId ∈ c.subtreeIds
    · simp [Base.AddChild, hmem] at h
    · simp [Base.AddChild, hmem] at h
      subst h
      refine ⟨rfl, Base.SetWorld w c, rfl, Base.SetWorld_GetId w c, ?_⟩
      simpa [Base.GetWorld] using Base.allWorld_SetWorld w c

/-- A concrete parent used in witness statements: a world-holding root. -/
def pWit : Base := Base.node 0 "w" [] true false (some 7) []

/-- A concrete child used in witness statements: a model with one existing
descendant whose world reference initially disagrees with the parent's. -/
def cWit : Base :=
  Base.node 1 "m" [] true false none
    [Base.node 2 "l" [] true false (some 3) []]

/-- The parent `pWit` after attaching `cWit`. -/
def pWitAfter : Base :=
  Base.node 0 "w" [] true false (some 7) [Base.SetWorld (some 7) cWit]

/-- C1 witness: a concrete accepted attachment, checked end to end. -/
theorem addChild_propagates_world_witness :
    pWitAfter.GetWorld = pWit.GetWorld ∧
      ∃ c', pWitAfter.children = pWit.children ++ [c'] ∧
        c'.GetId = cWit.GetId ∧
        Base.allWorld pWitAfter.GetWorld c' = true :=
  addChild_propagates_world pWit cWit pWitAfter rfl

/-- C3: attaching an entity as its own child, `AddChild(A, A)`, is rejected
with `InvalidAttachment` and the tree is completely unchanged: the returned
parent is exactly `A` (same children sequence, same world reference, same
everything). -/
theorem addChild_self_rejected (A : Base) :
    Base.AddChild A (some A) = (AttachResult.invalidAttachment, A) := by
  cases A with
  | node i n t sv sl w ch =>
    simp [Base.AddChild, Base.self_mem_subtreeIds (Base.node i n t sv sl w ch)]

theorem runIds_lower_bound (c : Nat) (es : List ProcEvent) :
    ∀ x ∈ runIds c es, c ≤ x := by
  induction es generalizing c with
  | nil => simp [runIds]
  | cons e es2 ih =>
    cases e with
    | create =>
      intro x hx
      rcases (by simpa [runIds] using hx : x = c ∨ x ∈ runIds (c + 1) es2) with
        rfl | hx2
      · exact Nat.le_refl x
      · exact Nat.le_trans (Nat.le_succ c) (ih (c + 1) x hx2)
    | destroy =>
      intro x hx
      exact ih c x (by simpa [runIds] using hx)

/-- C2: along any process run (any interleaving of entity constructions and
destructions, starting from any counter value), the ids handed out at
construction are strictly increasing, hence pairwise distinct across the
whole run — destruction never resets the counter, so destroy/recreate cycles
never reuse an id. -/
theorem runIds_pairwise_distinct (c : Nat) (es : List ProcEvent) :
    (runIds c es).Pairwise (· < ·) ∧ (runIds c es).Nodup := by
  have key : ∀ (c2 : Nat), (runIds c2 es).Pairwise (· < ·) := by
    induction es with
    | nil => intro c2; simp [runIds]
    | cons e es2 ih =>
      intro c2
      cases e with
      | create =>
        refine List.pairwise_cons.mpr ⟨?_, ih (c2 + 1)⟩
        intro x hx
        exact Nat.lt_of_lt_of_le (Nat.lt_succ_self c2)
          (runIds_lower_bound (c2 + 1) es2 x hx)
      | destroy => exact ih c2
  exact ⟨key c, (key c).imp Nat.ne_of_lt⟩

theorem find?_name_append (x : String) (pre l : List Base)
    (hpre : ∀ c ∈ pre, c.GetName ≠ x) :
    (pre ++ l).find? (fun c => c.GetName == x) =
      l.find? (fun c => c.GetName == x) := by
  induction pre with
  | nil => rfl
  | cons c cs ih =>
    have hc : (c.GetName == x) = false := by
      simpa using hpre c (List.mem_cons_self c cs)
    simp only [List.cons_append, List.find?_cons, hc]
    exact ih (fun d hd => hpre d (List.mem_cons_of_mem c hd))

theorem removeFirstByName_append (x : String) (pre l : List Base)
    (hpre : ∀ c ∈ pre, c.GetName ≠ x) :
    removeFirstByName x (pre ++ l) = pre ++ removeFirstByName x l := by
  induction pre with
  | nil => rfl
  | cons c cs ih =>
    have hc : (c.GetName == x) = false := by
      simpa using hpre c (List.mem_cons_self c cs)
    have ih2 := ih (fun d hd => hpre d (List.mem_cons_of_mem c hd))
    simp [removeFirstByName, hc, ih2]

/-- C4: when a parent's children sequence holds two children both named `x`,
the earlier one `c1` (no child before it is named `x`) and a later one `c2`,
then `GetChild("x")` returns `c1` — the leftmost match in child order — and
`RemoveChild("x")` removes only `c1`: afterwards the children sequence is
the original one with just `c1` deleted, so `c2` is still present. -/
theorem getChild_removeChild_leftmost (p : Base) (x : String)
    (pre rest : List Base) (c1 c2 : Base)
    (hch : p.children = pre ++ c1 :: rest)
    (hpre : ∀ c ∈ pre, c.GetName ≠ x)
    (h1 : c1.GetName = x) (h2 : c2 ∈ rest) (h2n : c2.GetName = x) :
    p.GetChild x = some c1 ∧
      (p.RemoveChildByName x).children = pre ++ rest ∧
      c2 ∈ (p.RemoveChildByName x).children := by
  cases p with
  | node i n t sv sl w ch =>
    have hch2 : ch = pre ++ c1 :: rest := hch
    subst hch2
    have hfind : ((pre ++ c1 :: rest).find? (fun c => c.GetName == x)) =
        some c1 := by
      rw [find?_name_append x pre (c1 :: rest) hpre]
      simp [List.find?_cons, h1]
    have hrem : removeFirstByName x (pre ++ c1 :: rest) = pre ++ rest := by
      rw [removeFirstByName_append x pre (c1 :: rest) hpre]
      simp [removeFirstByName, h1]
    refine ⟨?_, ?_, ?_⟩
    · simpa [Base.GetChild, Base.children] using hfind
    · simpa [Base.RemoveChildByName, Base.children] using hrem
    · simp [Base.RemoveChildByName, Base.children, hrem]
      exact Or.inr h2

/-- A child named "x" with id 1, for the duplicate-name witness. -/
def cDupOne : Base := Base.node 1 "x" [] true false none []

/-- A second child also named "x", with id 2. -/
def cDupTwo : Base := Base.node 2 "x" [] true false none []

/-- A parent holding the two same-named children `cDupOne` then `cDupTwo`. -/
def pDup : Base := Base.node 0 "p" [] true false none [cDupOne, cDupTwo]

/-- C4 witness: the duplicate-name scenario on a concrete tree. -/
theorem getChild_removeChild_leftmost_witness :
    pDup.GetChild "x" = some cDupOne ∧
      (pDup.RemoveChildByName "x").children = [] ++ [cDupTwo] ∧
      cDupTwo ∈ (pDup.RemoveChildByName "x").children :=
  getChild_removeChild_leftmost pDup "x" [] [cDupTwo] cDupOne cDupTwo rfl
    (by simp) rfl (List.mem_singleton.mpr rfl) rfl

theorem addTypes_typeTags (e : Base) (ts : List EntityType) :
    (e.AddTypes ts).typeTags = e.typeTags ++ ts := by
  induction ts generalizing e with
  | nil => simp [Base.AddTypes]
  | cons ty tys ih =>
    cases e with
    | node i n t sv sl w ch =>
      rw [show Base.AddTypes (Base.node i n t sv sl w ch) (ty :: tys) =
        Base.AddTypes (Base.node i n (t ++ [ty]) sv sl w ch) tys from rfl]
      rw [ih]
      simp [Base.typeTags]

/-- C5: after any sequence of `AddType` calls (appending the markers `ts`,
in order, to an arbitrary starting entity), `GetLeafType()` is the last
marker passed, `HasType(m)` holds for every marker `m` passed, and the
latter stays true after any further `AddType` calls — the type-tag sequence
never shrinks or reorders. -/
theorem addType_leafType_hasType (e : Base) (ts : List EntityType)
    (h : ts ≠ []) :
    (e.AddTypes ts).GetLeafType = some (ts.getLast h) ∧
      (∀ m ∈ ts, (e.AddTypes ts).HasType m = true) ∧
      (∀ ts2 : List EntityType, ∀ m ∈ ts,
        ((e.AddTypes ts).AddTypes ts2).HasType m = true) := by
  refine ⟨?_, ?_, ?_⟩
  · rw [Base.GetLeafType, addTypes_typeTags]
    rw [List.getLast?_append_of_ne_nil _ h]
    exact List.getLast?_eq_getLast ts h
  · intro m hm
    rw [Base.HasType, addTypes_typeTags]
    simp [List.contains_eq_any_beq]
    exact Or.inr hm
  · intro ts2 m hm
    rw [Base.HasType, addTypes_typeTags, addTypes_typeTags]
    simp [List.contains_eq_any_beq]
    exact Or.inr (Or.inl hm)

/-- C5 witness: tag a fresh entity `ENTITY` then `MODEL`; the leaf type is
`MODEL`, both markers are held, and both survive a further `LINK` tag. -/
theorem addType_leafType_hasType_witness :
    ((Base.node 5 "e" [] true false none []).AddTypes
        [EntityType.ENTITY, EntityType.MODEL]).GetLeafType =
      some ([EntityType.ENTITY, EntityType.MODEL].getLast (by simp)) ∧
      (∀ m ∈ [EntityType.ENTITY, EntityType.MODEL],
        ((Base.node 5 "e" [] true false none []).AddTypes
          [EntityType.ENTITY, EntityType.MODEL]).HasType m = true) ∧
      (∀ ts2 : List EntityType, ∀ m ∈ [EntityType.ENTITY, EntityType.MODEL],
        (((Base.node 5 "e" [] true false none []).AddTypes
          [EntityType.ENTITY, EntityType.MODEL]).AddTypes ts2).HasType m =
          true) :=
  addType_leafType_hasType (Base.node 5 "e" [] true false none [])
    [EntityType.ENTITY, EntityType.MODEL] (by simp)

/-- C6: an entity whose type-tag sequence is empty has
`GetLeafType() = none`, the sentinel meaning "no type", which is distinct
from `some m` for every real type marker `m`. -/
theorem getLeafType_empty_sentinel (e : Base) (h : e.typeTags = []) :
    e.GetLeafType = none ∧ ∀ m : EntityType, e.GetLeafType ≠ some m := by
  have hl : e.GetLeafType = none := by
    rw [Base.GetLeafType, h]
    rfl
  exact ⟨hl, fun m hm => by rw [hl] at hm; exact Option.noConfusion hm⟩

/-- C6 witness: a freshly constructed entity with no type tags. -/
theorem getLeafType_empty_sentinel_witness :
    (Base.node 9 "fresh" [] true false none []).GetLeafType = none ∧
      ∀ m : EntityType,
        (Base.node 9 "fresh" [] true false none []).GetLeafType ≠ some m :=
  getLeafType_empty_sentinel (Base.node 9 "fresh" [] true false none []) rfl

/-- A parent that already holds a child named "x" (id 1), for the
round-trip counterexample. -/
def pC7 : Base :=
  Base.node 0 "p" [] true false none [Base.node 1 "x" [] true false none []]

/-- A new child also named "x" (id 2), attached to `pC7`. -/
def cC7 : Base := Base.node 2 "x" [] true false none []

/-- C7 counterexample: attaching `cC7` (named "x", id 2) under `pC7`, which
already holds a different child named "x" (id 1), succeeds — but the
immediate `GetChild("x")` returns the pre-existing leftmost child with id 1,
not the just-attached child with id 2.  So "attaching a child then
immediately looking it up by name returns that exact child" fails as
stated. -/
theorem addChild_getChild_counterexample :
    (Base.AddChild pC7 (some cC7)).1 = AttachResult.ok ∧
      ((Base.AddChild pC7 (some cC7)).2.GetChild cC7.GetName).map Base.GetId =
        some 1 ∧
      cC7.GetId = 2 ∧ (1 : Nat) ≠ 2 :=
  ⟨rfl, rfl, rfl, by decide⟩

/-- C7 (amended): for every parent and non-null child, when the attachment
is accepted and no existing child of the parent already bears the child's
name, an immediate `GetChild(child's name)` on the updated parent returns
the attached child — the returned entity's id equals the child's id. -/
theorem addChild_getChild_roundtrip (p c p' : Base)
    (h : Base.AddChild p (some c) = (AttachResult.ok, p'))
    (hfresh : ∀ d ∈ p.children, d.GetName ≠ c.GetName) :
    ∃ r, p'.GetChild c.GetName = some r ∧ r.GetId = c.GetId := by
  cases p with
  | node i n t sv sl w ch =>
    by_cases hmem : (Base.node i n t sv sl w ch).GetId ∈ c.subtreeIds
    · simp [Base.AddChild, hmem] at h
    · simp [Base.AddChild, hmem] at h
      subst h
      refine ⟨Base.SetWorld w c, ?_, Base.SetWorld_GetId w c⟩
      have hfresh2 : ∀ d ∈ ch, d.GetName ≠ c.GetName := hfresh
      rw [Base.GetChild]
      show (ch ++ [Base.SetWorld w c]).find?
        (fun d => d.GetName == c.GetName) = some (Base.SetWorld w c)
      rw [find?_name_append c.GetName ch [Base.SetWorld w c] hfresh2]
      simp [List.find?_cons, Base.SetWorld_GetName]

/-- A parent with no children yet, for the round-trip witness. -/
def pRt : Base := Base.node 0 "p" [] true false (some 4) []

/-- A child named "x" (id 3), for the round-trip witness. -/
def cRt : Base := Base.node 3 "x" [] true false none []

/-- C7 witness: attaching `cRt` under the childless `pRt` and looking "x" up
immediately returns an entity with id 3. -/
theorem addChild_getChild_roundtrip_witness :
    ∃ r, (Base.AddChild pRt (some cRt)).2.GetChild cRt.GetName = some r ∧
      r.GetId = cRt.GetId :=
  addChild_getChild_roundtrip pRt cRt (Base.AddChild pRt (some cRt)).2 rfl
    (by simp [pRt, Base.children])

/-- C8: the equality operator `Base::operator==` compares names only: it
returns true exactly when the two entities' names are equal, whatever their
ids, type tags, flags, world references or children are. -/
theorem base_equality_name_only (a b : Base) :
    Base.beq a b = true ↔ a.GetName = b.GetName := by
  rw [Base.beq]
  exact beq_iff_eq

/-- C8 witness: two entities with different ids, different flags, different
worlds and different subtrees compare equal because their names coincide. -/
theorem base_equality_name_only_witness :
    Base.beq (Base.node 1 "same" [EntityType.MODEL] true false (some 1)
        [Base.node 3 "kid" [] true false (some 1) []])
      (Base.node 2 "same" [] false true none []) = true :=
  (base_equality_name_only _ _).mpr rfl

/-- C9: the `EntityTypename` array has exactly one entry per `EntityType`
enumerator (23 entries for 23 enum values), so indexing it with any
enumerator's value is in bounds and the name lookup is total over the
enumeration. -/
theorem entityTypename_total_over_enum :
    EntityTypename.length = 23 ∧
      ∀ t : EntityType, t.toIdx < EntityTypename.length ∧
        (EntityTypename.get? t.toIdx).isSome = true := by
  refine ⟨rfl, fun t => ?_⟩
  cases t <;> exact ⟨by decide, by decide⟩

end GazeboPhysics

namespace GazeboGui

/-- The visual-message `action` field values used by `SphereMaker`
(`msgs::Visual::UPDATE` / `msgs::Visual::DELETE`). -/
inductive VisAction where
  | UPDATE
  | DELETE
  deriving DecidableEq, Repr

/-- A message published by the maker: either the visual message (identified
by its current `action` and `str_id`) on `visPub`, or the factory message
(identified by the model name it carries) on `makerPub`.  The
floating-point pose/scale content of the messages is outside the embedding
and is not recorded. -/
inductive PubMsg where
  | visual (action : VisAction) (strId : String)
  | factory (modelName : String)
  deriving DecidableEq, Repr

/-- A mouse event as consumed by `SphereMaker` (`common::MouseEvent`): the
integer pixel position where the button was pressed and the current integer
pixel position. -/
structure MouseEvent where
  pressPos : Int × Int
  pos : Int × Int
  deriving DecidableEq, Repr

/-- The state of a `SphereMaker` (`src/src/gui/SphereMaker.cc`).  `state` is
the internal state counter, `strId` the `str_id` of the visual message,
`action` the visual message's current action, `mousePushPos` the stored
press position, and `published` the log of messages published so far.  The
visual message's floating-point pose and scale, computed by camera raycasts
(`UserCamera::GetWorldPointOnPlane`, external to the sources) and
floating-point arithmetic, are abstracted into a single field of a parameter
type `V`. -/
structure SphereMaker (V : Type) where
  state : Nat
  strId : String
  action : VisAction
  mousePushPos : Int × Int
  poseScale : V
  published : List PubMsg

/-- Function `SphereMaker::Start` (lines 51-61): stores the camera (external, not
recorded), sets `str_id` to `"user_sphere_" ++ counter`, post-increments the
static `unsigned int counter`, and sets `state` to 1.  Takes and returns the
static counter alongside the maker. -/
def Start {V : Type} (c : Nat) (m : SphereMaker V) : SphereMaker V × Nat :=
  ({ m with strId := "user_sphere_" ++ toString c, state := 1 },
    (c + 1) % 2 ^ 32)

/-- Function `SphereMaker::Stop` (lines 63-71): publishes the visual message with
action `DELETE`, resets the action to `UPDATE`, emits the move-mode GUI
signal (external, not recorded), and sets `state` to 0. -/
def Stop {V : Type} (m : SphereMaker V) : SphereMaker V :=
  { m with
    published := m.published ++ [PubMsg.visual VisAction.DELETE m.strId],
    action := VisAction.UPDATE,
    state := 0 }

/-- Function `SphereMaker::IsActive` (lines 73-76): `return this->state > 0`. -/
def IsActive {V : Type} (m : SphereMaker V) : Bool :=
  decide (0 < m.state)

/-- Function `SphereMaker::OnMousePush` (lines 78-84): returns immediately when
`state == 0`; otherwise stores the event's press position. -/
def OnMousePush {V : Type} (ev : MouseEvent) (m : SphereMaker V) :
    SphereMaker V :=
  if m.state = 0 then m else { m with mousePushPos := ev.pressPos }

/-- Function `SphereMaker::CreateTheEntity` (lines 130-167): builds the factory
message whose model is named `str_id ++ "_model"` (its SDF body carries
floating-point values, abstracted away), publishes the visual message with
action `DELETE`, then publishes the factory message. -/
def CreateTheEntity {V : Type} (m : SphereMaker V) : SphereMaker V :=
  { m with
    action := VisAction.DELETE,
    published := m.published ++
      [PubMsg.visual VisAction.DELETE m.strId,
        PubMsg.factory (m.strId ++ "_model")] }

/-- Function `SphereMaker::OnMouseRelease` (lines 86-98): returns immediately when
`state == 0`; otherwise increments `state`, and when it reaches 2 calls
`CreateTheEntity` followed by `Stop`. -/
def OnMouseRelease {V : Type} (m : SphereMaker V) : SphereMaker V :=
  if m.state = 0 then m
  else
    let m2 := { m with state := m.state + 1 }
    if m2.state = 2 then Stop (CreateTheEntity m2) else m2

/-- Function `SphereMaker::OnMouseDrag` (lines 100-128): returns immediately when
`state == 0`; otherwise recomputes the visual message's pose and scale from
the stored press position and the event's current position (via the camera
and floating-point arithmetic, abstracted as the function `f`) and publishes
the visual message. -/
def OnMouseDrag {V : Type} (f : Int × Int → Int × Int → V)
    (ev : MouseEvent) (m : SphereMaker V) : SphereMaker V :=
  if m.state = 0 then m
  else
    { m with
      poseScale := f m.mousePushPos ev.pos,
      published := m.published ++ [PubMsg.visual m.action m.strId] }

/-- C10: `SphereMaker` is a state machine in which `IsActive()` is true
exactly when the state counter is positive; immediately after `Start` it is
true, immediately after `Stop` it is false, and each of `OnMousePush`,
`OnMouseDrag` and `OnMouseRelease` leaves the maker completely unchanged
whenever the state counter is zero. -/
theorem sphereMaker_state_machine (V : Type) :
    (∀ m : SphereMaker V, IsActive m = true ↔ 0 < m.state) ∧
      (∀ (c : Nat) (m : SphereMaker V), IsActive (Start c m).1 = true) ∧
      (∀ m : SphereMaker V, IsActive (Stop m) = false) ∧
      (∀ (m : SphereMaker V) (ev : MouseEvent)
        (f : Int × Int → Int × Int → V), m.state = 0 →
          OnMousePush ev m = m ∧ OnMouseDrag f ev m = m ∧
            OnMouseRelease m = m) := by
  refine ⟨fun m => ?_, fun c m => ?_, fun m => ?_, fun m ev f h0 => ?_⟩
  · simp [IsActive]
  · simp [IsActive, Start]
  · simp [IsActive, Stop]
  · exact ⟨by simp [OnMousePush, h0], by simp [OnMouseDrag, h0],
      by simp [OnMouseRelease, h0]⟩

/-- A concrete inactive maker for the C10 witness, with the abstract
pose/scale instantiated at `Unit`. -/
def mIdle : SphereMaker Unit :=
  { state := 0, strId := "", action := VisAction.UPDATE,
    mousePushPos := (0, 0), poseScale := (), published := [] }

/-- A concrete mouse event for the C10 witness. -/
def evWit : MouseEvent := { pressPos := (1, 2), pos := (3, 4) }

/-- C10 witness: the state machine facts at concrete inputs — in particular
all three mouse handlers leave the concrete inactive maker `mIdle`
unchanged. -/
theorem sphereMaker_state_machine_witness :
    (IsActive mIdle = true ↔ 0 < mIdle.state) ∧
      IsActive (Start 0 mIdle).1 = true ∧
      IsActive (Stop mIdle) = false ∧
      (OnMousePush evWit mIdle = mIdle ∧
        OnMouseDrag (fun _ _ => ()) evWit mIdle = mIdle ∧
        OnMouseRelease mIdle = mIdle) :=
  ⟨(sphereMaker_state_machine Unit).1 mIdle,
    (sphereMaker_state_machine Unit).2.1 0 mIdle,
    (sphereMaker_state_machine Unit).2.2.1 mIdle,
    (sphereMaker_state_machine Unit).2.2.2 mIdle evWit (fun _ _ => ()) rfl⟩

end GazeboGui
